import Mathlib

/-!
Verification of the hiero-transformer JSON ↔ text conversion pipeline.

This file gives a shallow embedding of the conversion core found in
`convert_files/clean_convert2txt.py` and `convert_files/txt2json.py`:

* text is `Str := List Char`; Python's `str.strip()` becomes `pyStrip`,
  `str.replace` of single characters becomes `List.map` / `List.filter`,
  and `" ".join(text)` becomes `List.intersperse ' '`;
* JSON records read by the JSON→Text converter are modelled by `InEntry`,
  whose optional fields mirror `entry.get(field)` returning `None` for a
  missing key (only the fields the converter ever reads are modelled);
* records built by the Text→JSON converter are association lists
  (`OutRecord`), so that dict-key insertion order and key-overwriting
  semantics of the Python `entry[field] = value` assignments are visible;
* the external cleaning functions imported from `utils` are parameters
  (`Cleaners`): the converter is proved correct for every cleaner, which
  matches their role as out-of-scope external collaborators;
* Python exceptions raised by the converters become `Except PyError`;
  since in the source every `raise` happens before the output files are
  opened, an `.error` result means nothing was written, and the
  would-be file contents are part of the `.ok` value (`outputFiles`,
  `writtenJson`).
-/

/-- Text content: Python strings as lists of characters. -/
abbrev Str := List Char

/-- Coerce a Lean string literal to the character-list representation. -/
def pyS (s : String) : Str := s.toList

/-- Whitespace characters stripped by Python's `str.strip()`
(ASCII range: space, tab, newline, carriage return, vertical tab, form feed). -/
def pyIsSpace (c : Char) : Bool :=
  c = ' ' || c = '\t' || c = '\n' || c = '\r' || c = '\x0b' || c = '\x0c'

/-- Python `str.strip()`: drop leading and trailing whitespace. -/
def pyStrip (s : Str) : Str :=
  ((s.dropWhile pyIsSpace).reverse.dropWhile pyIsSpace).reverse

/-- Python `text.replace(" ", "_")` character map. -/
def spaceToUnderscore (c : Char) : Char := if c = ' ' then '_' else c

/-- Python `text.replace("_", " ")` character map. -/
def underscoreToSpace (c : Char) : Char := if c = '_' then ' ' else c

/-- Python `text.replace(" ", "")`: delete every space. -/
def removeSpaces (s : Str) : Str := s.filter (fun c => !(c == ' '))

/-- `format_egy` from clean_convert2txt.py: hieroglyph codes are already
space-separated, so formatting is just `text.strip()`. -/
def format_egy (text : Str) : Str := pyStrip text

/-- `format_tnt` from clean_convert2txt.py: strip, replace word spaces with
underscores, then join all characters with spaces (`" ".join(text)`). -/
def format_tnt (text : Str) : Str :=
  List.intersperse ' ' ((pyStrip text).map spaceToUnderscore)

/-- `format_text` from clean_convert2txt.py: dispatch on the language type. -/
def format_text (text : Str) (lang_type : String) : Str :=
  if lang_type = "egy" then format_egy text
  else if lang_type = "tnt" then format_tnt text
  else pyStrip text

/-- `unformat_egy` from txt2json.py: just `text.strip()`. -/
def unformat_egy (text : Str) : Str := pyStrip text

/-- `unformat_tnt` from txt2json.py: strip, remove all spaces, replace
underscores with spaces, strip again. -/
def unformat_tnt (text : Str) : Str :=
  pyStrip ((removeSpaces (pyStrip text)).map underscoreToSpace)

/-- `unformat_text` from txt2json.py: dispatch on the language type. -/
def unformat_text (text : Str) (lang_type : String) : Str :=
  if lang_type = "egy" then unformat_egy text
  else if lang_type = "tnt" then unformat_tnt text
  else pyStrip text

/-- `FIELD_MAPPING` shared by both converters: field code → canonical
record field name; `.get` returns `none` outside the closed enumeration. -/
def FIELD_MAPPING (code : String) : Option String :=
  if code = "egy" then some "source"
  else if code = "tnt" then some "transliteration"
  else if code = "en" then some "target"
  else if code = "de" then some "target"
  else if code = "lkey" then some "lKey"
  else if code = "worldClass" then some "wordClass"
  else none

/-- `LANG_FILTER_MAPPING` from clean_convert2txt.py: target codes "en"/"de"
require `metadata.target_lang` to equal the associated language tag. -/
def LANG_FILTER_MAPPING (code : String) : Option Str :=
  if code = "en" then some (pyS "en")
  else if code = "de" then some (pyS "de")
  else none

/-- The external cleaning functions imported from `utils`
(`clean_graphics`, `clean_wChar`, `clean_traduction`). They are external
collaborators of the conversion core, so the embedding is parametric in them. -/
structure Cleaners where
  clean_graphics : Str → Str
  clean_wChar : Str → Str
  clean_traduction : Str → Str

/-- `CLEAN_FUNCTION_MAPPING` from clean_convert2txt.py. -/
def CLEAN_FUNCTION_MAPPING (C : Cleaners) (code : String) : Option (Str → Str) :=
  if code = "egy" then some C.clean_graphics
  else if code = "tnt" then some C.clean_wChar
  else if code = "en" then some C.clean_traduction
  else if code = "de" then some C.clean_traduction
  else none

/-- `clean_text` from clean_convert2txt.py: apply the mapped cleaning
function, or return the text unchanged when no cleaner is mapped. -/
def clean_text (C : Cleaners) (text : Str) (lang_type : String) : Str :=
  match CLEAN_FUNCTION_MAPPING C lang_type with
  | some f => f text
  | none => text

/-- The `metadata` sub-object of an input record. Only `target_lang` is
ever read by the converter (`metadata.get("target_lang")`), so only it is
modelled; `none` stands for a missing key. -/
structure Metadata where
  target_lang : Option Str
  deriving DecidableEq

/-- The empty dict default of `entry.get("metadata", {})`. -/
def emptyMetadata : Metadata := ⟨none⟩

/-- An input JSON record as read by `convert_json_to_txt`. Each field is
`Option Str`: `none` models a missing key, mirroring `entry.get(field)`.
Only the keys the converter can look up are modelled: the five canonical
fields reachable through `FIELD_MAPPING`, plus `metadata`. -/
structure InEntry where
  source : Option Str
  transliteration : Option Str
  target : Option Str
  lKey : Option Str
  wordClass : Option Str
  metadata : Option Metadata
  deriving DecidableEq

/-- `entry.get(field)` for the canonical field names. -/
def InEntry.get (e : InEntry) (field : String) : Option Str :=
  if field = "source" then e.source
  else if field = "transliteration" then e.transliteration
  else if field = "target" then e.target
  else if field = "lKey" then e.lKey
  else if field = "wordClass" then e.wordClass
  else none

/-- The language-filter test of clean_convert2txt.py lines 125-130:
`true` when the target code has a language filter and
`entry.get("metadata", {}).get("target_lang")` differs from the required
tag (Python's `None != "en"` is true, so a missing value fails the filter). -/
def langFilterSkip (target : String) (entry : InEntry) : Bool :=
  match LANG_FILTER_MAPPING target with
  | some required => decide ((entry.metadata.getD emptyMetadata).target_lang ≠ some required)
  | none => false

/-- One iteration of the `for entry in data` loop of `convert_json_to_txt`:
`none` when the entry is skipped (by any of the `continue` branches),
`some (source_formatted, target_formatted)` when it is appended. -/
def processEntry (C : Cleaners) (source target source_field target_field : String)
    (entry : InEntry) : Option (Str × Str) :=
  match entry.get source_field, entry.get target_field with
  | some source_text, some target_text =>
    if source_text = pyS "" || target_text = pyS "" then none
    else if langFilterSkip target entry then none
    else
      let source_cleaned := clean_text C source_text source
      let target_cleaned := clean_text C target_text target
      if source_cleaned = pyS "" || target_cleaned = pyS "" then none
      else
        let source_formatted := format_text source_cleaned source
        let target_formatted := format_text target_cleaned target
        if source_formatted = pyS "" || target_formatted = pyS "" then none
        else some (source_formatted, target_formatted)
  | _, _ => none

/-- The record loop of `convert_json_to_txt`: builds `source_lines`,
`target_lines` and the `skipped` counter, in input order. -/
def convLoop (C : Cleaners) (source target source_field target_field : String) :
    List InEntry → List Str × List Str × Nat
  | [] => ([], [], 0)
  | entry :: rest =>
    let r := convLoop C source target source_field target_field rest
    match processEntry C source target source_field target_field entry with
    | none => (r.1, r.2.1, r.2.2 + 1)
    | some st => (st.1 :: r.1, st.2 :: r.2.1, r.2.2)

/-- The stats dict returned by `convert_json_to_txt`. -/
structure Stats where
  total_entries : Nat
  processed_entries : Nat
  skipped_entries : Nat
  deriving DecidableEq

/-- Fatal errors of the converters (Python exceptions raised before the
write phase). `unknownSourceType`/`unknownTargetType` are the two
`ValueError`s for a code outside `FIELD_MAPPING` (the spec's
`UnknownFieldCode`); `lineCountMismatch` is the `ValueError` of
txt2json.py line 86 carrying the two line counts. -/
inductive PyError where
  | unknownSourceType : String → PyError
  | unknownTargetType : String → PyError
  | lineCountMismatch : Nat → Nat → PyError
  deriving DecidableEq

/-- `convert_json_to_txt` from clean_convert2txt.py (pure core): resolves
both field codes (failing fast before touching any record), runs the
record loop, and returns `(source_lines, target_lines, stats)`, where
`processed_entries` is `len(source_lines)` exactly as in line 164 of the
source. File reading/writing is I/O around this core; the written file
contents are recovered by `outputFiles` below. -/
def convert_json_to_txt (C : Cleaners) (data : List InEntry) (source target : String) :
    Except PyError (List Str × List Str × Stats) :=
  match FIELD_MAPPING source with
  | none => .error (.unknownSourceType source)
  | some source_field =>
    match FIELD_MAPPING target with
    | none => .error (.unknownTargetType target)
    | some target_field =>
      let r := convLoop C source target source_field target_field data
      .ok (r.1, r.2.1, ⟨data.length, r.1.length, r.2.2⟩)

/-- Python `'\n'.join(lines)`. -/
def joinLines (lines : List Str) : Str := List.intercalate (pyS "\n") lines

/-- Output file name `source_<src>2<tgt>_cleaned.txt`. -/
def sourceFilename (source target : String) : String :=
  "source_" ++ source ++ "2" ++ target ++ "_cleaned.txt"

/-- Output file name `target_<src>2<tgt>_cleaned.txt`. -/
def targetFilename (source target : String) : String :=
  "target_" ++ source ++ "2" ++ target ++ "_cleaned.txt"

/-- The files written by `convert_json_to_txt`: both text files on
success, nothing when the conversion raised (every `raise` in the source
precedes the `open(..., 'w')` calls). -/
def outputFiles (source target : String)
    (r : Except PyError (List Str × List Str × Stats)) : List (String × Str) :=
  match r with
  | .ok (sl, tl, _) =>
    [(sourceFilename source target, joinLines sl),
     (targetFilename source target, joinLines tl)]
  | .error _ => []

/-- JSON values appearing in records built by txt2json.py: strings and
one nested object (the metadata block). -/
inductive JVal where
  | str : Str → JVal
  | obj : List (String × JVal) → JVal

/-- A JSON record under construction: an association list, preserving the
key insertion order of the Python dict literal. -/
abbrev OutRecord := List (String × JVal)

/-- Python dict lookup: value at the first matching key. -/
def lookupKey (l : OutRecord) (k : String) : Option JVal :=
  match l with
  | [] => none
  | (k', v') :: rest => if k' = k then some v' else lookupKey rest k

/-- Python dict assignment `d[k] = v`: overwrite in place if the key is
present, append otherwise. -/
def setKey (l : OutRecord) (k : String) (v : JVal) : OutRecord :=
  match l with
  | [] => [(k, v)]
  | (k', v') :: rest => if k' = k then (k, v) :: rest else (k', v') :: setKey rest k v

/-- The `entry` dict literal of txt2json.py lines 93-110: every top-level
field (including `flexCode`) empty, metadata sub-keys all empty. -/
def defaultRecord : OutRecord :=
  [("source", .str (pyS "")),
   ("transliteration", .str (pyS "")),
   ("target", .str (pyS "")),
   ("lKey", .str (pyS "")),
   ("wordClass", .str (pyS "")),
   ("flexCode", .str (pyS "")),
   ("metadata", .obj
     [("source_lang", .str (pyS "")),
      ("target_lang", .str (pyS "")),
      ("id_datapoint", .str (pyS "")),
      ("id_sentence", .str (pyS "")),
      ("language", .str (pyS "")),
      ("date", .str (pyS "")),
      ("script", .str (pyS "")),
      ("id_tree", .str (pyS ""))])]

/-- Loop body of `convert_txt_to_json`: unformat both lines, then
`entry[source_field] = ...; entry[target_field] = ...` on the default
record. -/
def mkRecord (source_field target_field source_type target_type : String)
    (source_line target_line : Str) : OutRecord :=
  let source_unformatted := unformat_text source_line source_type
  let target_unformatted := unformat_text target_line target_type
  setKey (setKey defaultRecord source_field (JVal.str source_unformatted))
    target_field (JVal.str target_unformatted)

/-- `convert_txt_to_json` from txt2json.py (pure core, after file
reading): resolve both type codes, check the line counts, and build one
record per `zip`-ped line pair. The `.ok` value is the JSON array that
gets dumped to the output file; an `.error` means the output file was
never opened. -/
def convert_txt_to_json (source_lines target_lines : List Str)
    (source_type target_type : String) : Except PyError (List OutRecord) :=
  match FIELD_MAPPING source_type with
  | none => .error (.unknownSourceType source_type)
  | some source_field =>
    match FIELD_MAPPING target_type with
    | none => .error (.unknownTargetType target_type)
    | some target_field =>
      if source_lines.length ≠ target_lines.length then
        .error (.lineCountMismatch source_lines.length target_lines.length)
      else
        .ok (List.zipWith (mkRecord source_field target_field source_type target_type)
          source_lines target_lines)

/-- The JSON array written by `convert_txt_to_json`, `none` when the
conversion failed before the write. -/
def writtenJson (r : Except PyError (List OutRecord)) : Option (List OutRecord) :=
  r.toOption

/-- Cleaners that leave text unchanged, used to instantiate theorems at
concrete inputs. -/
def idCleaners : Cleaners := ⟨fun s => s, fun s => s, fun s => s⟩

/-- The fixed Record keys of the specification's data model, transcribed
from the spec (section 3: `source`, `transliteration`, `target`, `lKey`,
`wordClass`, plus the nested `metadata` mapping). Kept separate from the
source-derived `defaultRecord` so the two schemas can be compared. -/
def specRecordKeys : List String :=
  ["source", "transliteration", "target", "lKey", "wordClass", "metadata"]

/-- Claim C6 as stated: every record built by Text→JSON conversion has
exactly the two resolved fields set to the unformatted line values and
every other field at its empty default. (Defined so that its failure on
the code can be proved.) -/
def txtJsonTwoFieldClaim : Prop :=
  ∀ (source_lines target_lines : List Str) (source_type target_type sf tf : String)
    (recs : List OutRecord),
    FIELD_MAPPING source_type = some sf →
    FIELD_MAPPING target_type = some tf →
    convert_txt_to_json source_lines target_lines source_type target_type = .ok recs →
    ∀ i (hr : i < recs.length) (hs : i < source_lines.length)
      (ht : i < target_lines.length),
      lookupKey (recs.get ⟨i, hr⟩) sf =
        some (JVal.str (unformat_text (source_lines.get ⟨i, hs⟩) source_type)) ∧
      lookupKey (recs.get ⟨i, hr⟩) tf =
        some (JVal.str (unformat_text (target_lines.get ⟨i, ht⟩) target_type)) ∧
      ∀ k, k ≠ sf → k ≠ tf →
        lookupKey (recs.get ⟨i, hr⟩) k = lookupKey defaultRecord k

/-! ### Lemmas about `pyStrip` -/

theorem head_dropWhile_not (l : Str) (c : Char)
    (h : (l.dropWhile pyIsSpace).head? = some c) : pyIsSpace c = false := by
  induction l with
  | nil => simp [List.dropWhile] at h
  | cons a t ih =>
    cases hp : pyIsSpace a with
    | true =>
      rw [List.dropWhile_cons_of_pos hp] at h
      exact ih h
    | false =>
      rw [List.dropWhile_cons_of_neg (by simp [hp])] at h
      simp only [List.head?_cons, Option.some.injEq] at h
      rw [← h]
      exact hp

theorem getLast_dropWhile_of_ne_nil (l : Str) (h : l.dropWhile pyIsSpace ≠ []) :
    (l.dropWhile pyIsSpace).getLast? = l.getLast? := by
  induction l with
  | nil => simp at h
  | cons a t ih =>
    cases hp : pyIsSpace a with
    | true =>
      rw [List.dropWhile_cons_of_pos hp] at h ⊢
      have ht : t ≠ [] := by
        intro he
        rw [he] at h
        simp [List.dropWhile] at h
      rw [ih h]
      cases t with
      | nil => exact absurd rfl ht
      | cons b t2 => rw [List.getLast?_cons_cons]
    | false =>
      rw [List.dropWhile_cons_of_neg (by simp [hp])]

theorem dropWhile_eq_self_of_head (l : Str)
    (h : ∀ c, l.head? = some c → pyIsSpace c = false) : l.dropWhile pyIsSpace = l := by
  cases l with
  | nil => rfl
  | cons a t => exact List.dropWhile_cons_of_neg (by simp [h a rfl])

theorem head_pyStrip_not_space (s : Str) (c : Char) (h : (pyStrip s).head? = some c) :
    pyIsSpace c = false := by
  unfold pyStrip at h
  rw [List.head?_reverse] at h
  have hne : (s.dropWhile pyIsSpace).reverse.dropWhile pyIsSpace ≠ [] := by
    intro he
    rw [he] at h
    simp at h
  rw [getLast_dropWhile_of_ne_nil _ hne, List.getLast?_reverse] at h
  exact head_dropWhile_not _ _ h

theorem getLast_pyStrip_not_space (s : Str) (c : Char)
    (h : (pyStrip s).getLast? = some c) : pyIsSpace c = false := by
  unfold pyStrip at h
  rw [List.getLast?_reverse] at h
  exact head_dropWhile_not _ _ h

theorem pyStrip_eq_self (s : Str)
    (h1 : ∀ c, s.head? = some c → pyIsSpace c = false)
    (h2 : ∀ c, s.getLast? = some c → pyIsSpace c = false) : pyStrip s = s := by
  unfold pyStrip
  rw [dropWhile_eq_self_of_head s h1]
  rw [dropWhile_eq_self_of_head s.reverse
    (by intro c hc; rw [List.head?_reverse] at hc; exact h2 c hc)]
  exact List.reverse_reverse s

theorem pyStrip_idem (s : Str) : pyStrip (pyStrip s) = pyStrip s :=
  pyStrip_eq_self _ (head_pyStrip_not_space s) (getLast_pyStrip_not_space s)

theorem mem_of_mem_pyStrip {c : Char} {s : Str} (h : c ∈ pyStrip s) : c ∈ s := by
  unfold pyStrip at h
  rw [List.mem_reverse] at h
  have h2 := (List.dropWhile_suffix pyIsSpace).subset h
  rw [List.mem_reverse] at h2
  exact (List.dropWhile_suffix pyIsSpace).subset h2

/-! ### Lemmas about `List.intersperse` and the character maps -/

theorem head_intersperse (l : Str) :
    (List.intersperse ' ' l).head? = l.head? := by
  cases l with
  | nil => rfl
  | cons a t => cases t <;> rfl

theorem getLast_intersperse : ∀ l : Str,
    (List.intersperse ' ' l).getLast? = l.getLast?
  | [] => rfl
  | [_] => rfl
  | a :: b :: t => by
    rw [List.intersperse_cons_cons, List.getLast?_cons_cons]
    have hcons : ∃ c l2, List.intersperse ' ' (b :: t) = c :: l2 := by
      cases t with
      | nil => exact ⟨b, [], rfl⟩
      | cons d t2 => exact ⟨b, ' ' :: List.intersperse ' ' (d :: t2),
          List.intersperse_cons_cons ' ' b d t2⟩
    obtain ⟨c, l2, hc⟩ := hcons
    rw [hc, List.getLast?_cons_cons, ← hc, getLast_intersperse (b :: t),
      List.getLast?_cons_cons]

theorem filter_intersperse_space : ∀ l : Str, ' ' ∉ l →
    removeSpaces (List.intersperse ' ' l) = l
  | [], _ => rfl
  | [a], h => by
    simp only [List.mem_singleton] at h
    have ha : a ≠ ' ' := fun he => h he.symm
    show List.filter _ [a] = [a]
    rw [List.filter_cons_of_pos (by simp [ha])]
    rfl
  | a :: b :: t, h => by
    have ha : a ≠ ' ' := fun he => h (he ▸ List.mem_cons_self a (b :: t))
    have ht : ' ' ∉ b :: t := fun hm => h (List.mem_cons_of_mem a hm)
    rw [List.intersperse_cons_cons]
    show List.filter _ (a :: ' ' :: List.intersperse ' ' (b :: t)) = a :: b :: t
    rw [List.filter_cons_of_pos (by simp [ha]), List.filter_cons_of_neg (by simp)]
    exact congrArg (a :: ·) (filter_intersperse_space (b :: t) ht)

theorem map_spaceToUnderscore_of_not_mem (l : Str) (h : ' ' ∉ l) :
    l.map spaceToUnderscore = l := by
  induction l with
  | nil => rfl
  | cons a t ih =>
    have ha : a ≠ ' ' := fun he => h (he ▸ List.mem_cons_self a t)
    have ht : ' ' ∉ t := fun hm => h (List.mem_cons_of_mem a hm)
    simp only [List.map_cons, ih ht, spaceToUnderscore, if_neg ha]

theorem map_underscoreToSpace_of_not_mem (l : Str) (h : '_' ∉ l) :
    l.map underscoreToSpace = l := by
  induction l with
  | nil => rfl
  | cons a t ih =>
    have ha : a ≠ '_' := fun he => h (he ▸ List.mem_cons_self a t)
    have ht : '_' ∉ t := fun hm => h (List.mem_cons_of_mem a hm)
    simp only [List.map_cons, ih ht, underscoreToSpace, if_neg ha]

theorem removeSpaces_of_not_mem (l : Str) (h : ' ' ∉ l) : removeSpaces l = l := by
  unfold removeSpaces
  rw [List.filter_eq_self]
  intro a ha
  simp only [Bool.not_eq_eq_eq_not, Bool.not_true, beq_eq_false_iff_ne]
  exact fun he => h (he ▸ ha)

/-! ### The tnt round trip -/

theorem unformat_format_tnt (y : Str) (hu : '_' ∉ y) (hs : ' ' ∉ y) :
    unformat_tnt (format_tnt y) = pyStrip y := by
  have hs' : ' ' ∉ pyStrip y := fun h => hs (mem_of_mem_pyStrip h)
  have hu' : '_' ∉ pyStrip y := fun h => hu (mem_of_mem_pyStrip h)
  unfold format_tnt unformat_tnt
  rw [map_spaceToUnderscore_of_not_mem _ hs']
  rw [pyStrip_eq_self (List.intersperse ' ' (pyStrip y))
    (fun c hc => head_pyStrip_not_space y c (by rwa [head_intersperse] at hc))
    (fun c hc => getLast_pyStrip_not_space y c (by rwa [getLast_intersperse] at hc))]
  rw [filter_intersperse_space _ hs']
  rw [map_underscoreToSpace_of_not_mem _ hu']
  exact pyStrip_idem y

theorem unformat_tnt_eq_strip (x : Str) (hu : '_' ∉ x) (hs : ' ' ∉ x) :
    unformat_tnt x = pyStrip x := by
  have hs' : ' ' ∉ pyStrip x := fun h => hs (mem_of_mem_pyStrip h)
  have hu' : '_' ∉ pyStrip x := fun h => hu (mem_of_mem_pyStrip h)
  unfold unformat_tnt
  rw [removeSpaces_of_not_mem _ hs', map_underscoreToSpace_of_not_mem _ hu',
    pyStrip_idem]

/-- C1: for every string containing neither a literal underscore nor the
separator character (a space), `unformat_tnt (format_tnt x)` equals `x`
after trimming, and `unformat_tnt (format_tnt (unformat_tnt x))` equals
`unformat_tnt x`. -/
theorem tnt_round_trip (x : Str) (hu : '_' ∉ x) (hs : ' ' ∉ x) :
    unformat_tnt (format_tnt x) = pyStrip x ∧
    unformat_tnt (format_tnt (unformat_tnt x)) = unformat_tnt x := by
  have hs' : ' ' ∉ pyStrip x := fun h => hs (mem_of_mem_pyStrip h)
  have hu' : '_' ∉ pyStrip x := fun h => hu (mem_of_mem_pyStrip h)
  refine ⟨unformat_format_tnt x hu hs, ?_⟩
  rw [unformat_tnt_eq_strip x hu hs, unformat_format_tnt _ hu' hs', pyStrip_idem]

/-- Witness for C1 at the transliteration "nfr". -/
theorem tnt_round_trip_witness :
    unformat_tnt (format_tnt (pyS "nfr")) = pyStrip (pyS "nfr") ∧
    unformat_tnt (format_tnt (unformat_tnt (pyS "nfr"))) = unformat_tnt (pyS "nfr") :=
  tnt_round_trip (pyS "nfr") (by decide) (by decide)

/-- C8: `format_egy` and `unformat_egy` are each idempotent, for every
string (in particular for every already-trimmed one). -/
theorem egy_format_idempotent (x : Str) :
    format_egy (format_egy x) = format_egy x ∧
    unformat_egy (unformat_egy x) = unformat_egy x :=
  ⟨pyStrip_idem x, pyStrip_idem x⟩

/-! ### Lemmas about association-list records -/

theorem lookupKey_setKey_self (l : OutRecord) (k : String) (v : JVal) :
    lookupKey (setKey l k v) k = some v := by
  induction l with
  | nil => simp [setKey, lookupKey]
  | cons p rest ih =>
    obtain ⟨k1, v1⟩ := p
    by_cases hk : k1 = k
    · subst hk
      simp [setKey, lookupKey]
    · simp [setKey, lookupKey, hk, ih]

theorem lookupKey_setKey_ne (l : OutRecord) (k k' : String) (v : JVal)
    (h : k' ≠ k) : lookupKey (setKey l k v) k' = lookupKey l k' := by
  have hne : ¬(k = k') := fun he => h he.symm
  induction l with
  | nil => simp [setKey, lookupKey, hne]
  | cons p rest ih =>
    obtain ⟨k1, v1⟩ := p
    by_cases hk : k1 = k
    · subst hk
      simp [setKey, lookupKey, hne]
    · simp only [setKey, if_neg hk, lookupKey]
      by_cases hk' : k1 = k'
      · simp [hk']
      · simp [hk', ih]

theorem keys_setKey (l : OutRecord) (k : String) (v : JVal)
    (h : k ∈ l.map Prod.fst) :
    (setKey l k v).map Prod.fst = l.map Prod.fst := by
  induction l with
  | nil => simp at h
  | cons p rest ih =>
    obtain ⟨k1, v1⟩ := p
    by_cases hk : k1 = k
    · subst hk
      simp [setKey]
    · have h' : k ∈ rest.map Prod.fst := by
        simp only [List.map_cons, List.mem_cons] at h
        rcases h with h | h
        · exact absurd h.symm hk
        · exact h
      simp [setKey, hk, ih h']

theorem field_of_code (code f : String) (h : FIELD_MAPPING code = some f) :
    f = "source" ∨ f = "transliteration" ∨ f = "target" ∨ f = "lKey" ∨
      f = "wordClass" := by
  unfold FIELD_MAPPING at h
  split_ifs at h <;>
    first
      | exact Option.noConfusion h
      | (injection h with h; subst h; simp)

theorem field_mem_default_keys (code f : String) (h : FIELD_MAPPING code = some f) :
    f ∈ defaultRecord.map Prod.fst := by
  rcases field_of_code code f h with h1 | h1 | h1 | h1 | h1 <;> subst h1 <;>
    simp [defaultRecord]

theorem flexCode_ne_field (code f : String) (h : FIELD_MAPPING code = some f) :
    ("flexCode" : String) ≠ f := by
  rcases field_of_code code f h with h1 | h1 | h1 | h1 | h1 <;> subst h1 <;> decide

theorem get_zipWith (f : Str → Str → OutRecord) :
    ∀ (l1 l2 : List Str) (i : Nat) (h : i < (List.zipWith f l1 l2).length)
      (h1 : i < l1.length) (h2 : i < l2.length),
      (List.zipWith f l1 l2).get ⟨i, h⟩ = f (l1.get ⟨i, h1⟩) (l2.get ⟨i, h2⟩)
  | [], _, i, _, h1, _ => absurd h1 (Nat.not_lt_zero i)
  | _ :: _, [], i, _, _, h2 => absurd h2 (Nat.not_lt_zero i)
  | _ :: _, _ :: _, 0, _, _, _ => rfl
  | a :: t1, b :: t2, i + 1, h, h1, h2 =>
    get_zipWith f t1 t2 i (by simpa using h) (by simpa using h1) (by simpa using h2)

theorem exists_of_mem_zipWith {α β γ : Type} {f : α → β → γ} {r : γ} :
    ∀ {l1 : List α} {l2 : List β}, r ∈ List.zipWith f l1 l2 →
      ∃ a b, a ∈ l1 ∧ b ∈ l2 ∧ r = f a b := by
  intro l1
  induction l1 with
  | nil => intro l2 h; simp at h
  | cons a t ih =>
    intro l2 h
    cases l2 with
    | nil => simp at h
    | cons b t2 =>
      rw [List.zipWith_cons_cons] at h
      rcases List.mem_cons.mp h with h | h
      · exact ⟨a, b, List.mem_cons_self a t, List.mem_cons_self b t2, h⟩
      · obtain ⟨a', b', ha, hb, he⟩ := ih h
        exact ⟨a', b', List.mem_cons_of_mem a ha, List.mem_cons_of_mem b hb, he⟩

/-! ### Claims about the Text→JSON converter -/

/-- C4: when the two input files have different line counts (and both type
codes are valid, so that the earlier fail-fast checks pass), Text→JSON
conversion fails with the line-count-mismatch error and writes no output
file. -/
theorem line_count_mismatch_fails (source_lines target_lines : List Str)
    (source_type target_type sf tf : String)
    (hsf : FIELD_MAPPING source_type = some sf)
    (htf : FIELD_MAPPING target_type = some tf)
    (hlen : source_lines.length ≠ target_lines.length) :
    convert_txt_to_json source_lines target_lines source_type target_type =
      .error (.lineCountMismatch source_lines.length target_lines.length) ∧
    writtenJson (convert_txt_to_json source_lines target_lines source_type
      target_type) = none := by
  have hconv : convert_txt_to_json source_lines target_lines source_type
      target_type = .error (.lineCountMismatch source_lines.length
        target_lines.length) := by
    unfold convert_txt_to_json
    rw [hsf, htf]
    exact if_pos hlen
  rw [hconv]
  exact ⟨rfl, rfl⟩

/-- Witness for C4: scenario D, a 2-line source file against a 3-line
target file. -/
theorem line_count_mismatch_fails_witness :
    convert_txt_to_json [pyS "a", pyS "b"] [pyS "a", pyS "b", pyS "c"]
      "egy" "tnt" = .error (.lineCountMismatch 2 3) ∧
    writtenJson (convert_txt_to_json [pyS "a", pyS "b"]
      [pyS "a", pyS "b", pyS "c"] "egy" "tnt") = none :=
  line_count_mismatch_fails [pyS "a", pyS "b"] [pyS "a", pyS "b", pyS "c"]
    "egy" "tnt" "source" "transliteration" rfl rfl (by decide)

/-- C6 (amended): whenever the resolved source and target fields are
distinct, every record built by Text→JSON conversion has exactly the two
resolved fields set to the unformatted line values of its position, and
every other field (including the metadata block) keeps its empty default. -/
theorem txt_to_json_two_fields (source_lines target_lines : List Str)
    (source_type target_type sf tf : String) (recs : List OutRecord)
    (hsf : FIELD_MAPPING source_type = some sf)
    (htf : FIELD_MAPPING target_type = some tf)
    (hne : sf ≠ tf)
    (hok : convert_txt_to_json source_lines target_lines source_type
      target_type = .ok recs)
    (i : Nat) (hr : i < recs.length) (hs : i < source_lines.length)
    (ht : i < target_lines.length) :
    lookupKey (recs.get ⟨i, hr⟩) sf =
      some (JVal.str (unformat_text (source_lines.get ⟨i, hs⟩) source_type)) ∧
    lookupKey (recs.get ⟨i, hr⟩) tf =
      some (JVal.str (unformat_text (target_lines.get ⟨i, ht⟩) target_type)) ∧
    ∀ k, k ≠ sf → k ≠ tf →
      lookupKey (recs.get ⟨i, hr⟩) k = lookupKey defaultRecord k := by
  unfold convert_txt_to_json at hok
  rw [hsf, htf] at hok
  have hok2 : (if source_lines.length ≠ target_lines.length then
      (Except.error (PyError.lineCountMismatch source_lines.length
        target_lines.length) : Except PyError (List OutRecord))
    else .ok (List.zipWith (mkRecord sf tf source_type target_type)
      source_lines target_lines)) = .ok recs := hok
  split at hok2
  · exact Except.noConfusion hok2
  · have hrecs : recs = List.zipWith
        (mkRecord sf tf source_type target_type) source_lines target_lines := by
      injection hok2 with h
      exact h.symm
    subst hrecs
    rw [get_zipWith (mkRecord sf tf source_type target_type) source_lines
      target_lines i hr hs ht]
    unfold mkRecord
    refine ⟨?_, lookupKey_setKey_self _ _ _, ?_⟩
    · rw [lookupKey_setKey_ne _ _ _ _ hne, lookupKey_setKey_self]
    · intro k hks hkt
      rw [lookupKey_setKey_ne _ _ _ _ hkt, lookupKey_setKey_ne _ _ _ _ hks]

/-- Witness for the amended C6 at a concrete egy→tnt conversion. -/
theorem txt_to_json_two_fields_witness :
    lookupKey ((List.zipWith (mkRecord "source" "transliteration" "egy" "tnt")
        [pyS "ab"] [pyS "c d"]).get ⟨0, by decide⟩) "source" =
      some (JVal.str (unformat_text (pyS "ab") "egy")) := by
  have h := txt_to_json_two_fields [pyS "ab"] [pyS "c d"] "egy" "tnt"
    "source" "transliteration"
    (List.zipWith (mkRecord "source" "transliteration" "egy" "tnt")
      [pyS "ab"] [pyS "c d"]) rfl rfl (by decide) rfl 0 (by decide) (by decide)
    (by decide)
  exact h.1

/-- Counterexample for C6 as stated: with source type "en" and target type
"de" both codes resolve to the same field `target`, so the second dict
assignment overwrites the first and the record does not hold the
unformatted source value. -/
theorem txt_to_json_claim_counterexample : ¬ txtJsonTwoFieldClaim := by
  intro h
  have h0 := h [pyS "a"] [pyS "b"] "en" "de" "target" "target"
    (List.zipWith (mkRecord "target" "target" "en" "de") [pyS "a"] [pyS "b"])
    rfl rfl rfl 0 (by decide) (by decide) (by decide)
  have hL : lookupKey ((List.zipWith (mkRecord "target" "target" "en" "de")
      [pyS "a"] [pyS "b"]).get ⟨0, by decide⟩) "target" =
      some (JVal.str (pyS "b")) := rfl
  have h2 : some (JVal.str (pyS "b")) = some (JVal.str (pyS "a")) :=
    hL.symm.trans h0.1
  injection h2 with h3
  injection h3 with h4
  exact absurd h4 (by decide)

/-- C9: every record built by Text→JSON conversion carries a top-level
`flexCode` key initialized to the empty string; that key is not among the
fixed Record keys of the specification's data model, so the output schema
has seven top-level keys where the spec lists six. -/
theorem flexCode_extra_key (source_lines target_lines : List Str)
    (source_type target_type sf tf : String) (recs : List OutRecord)
    (hsf : FIELD_MAPPING source_type = some sf)
    (htf : FIELD_MAPPING target_type = some tf)
    (hok : convert_txt_to_json source_lines target_lines source_type
      target_type = .ok recs) :
    (∀ r ∈ recs, lookupKey r "flexCode" = some (JVal.str (pyS "")) ∧
      r.map Prod.fst = defaultRecord.map Prod.fst) ∧
    (defaultRecord.map Prod.fst).length = 7 ∧
    "flexCode" ∉ specRecordKeys ∧
    specRecordKeys.length = 6 := by
  refine ⟨?_, rfl, by simp [specRecordKeys], rfl⟩
  intro r hrmem
  unfold convert_txt_to_json at hok
  rw [hsf, htf] at hok
  have hok2 : (if source_lines.length ≠ target_lines.length then
      (Except.error (PyError.lineCountMismatch source_lines.length
        target_lines.length) : Except PyError (List OutRecord))
    else .ok (List.zipWith (mkRecord sf tf source_type target_type)
      source_lines target_lines)) = .ok recs := hok
  split at hok2
  · exact Except.noConfusion hok2
  · have hrecs : recs = List.zipWith
        (mkRecord sf tf source_type target_type) source_lines target_lines := by
      injection hok2 with h
      exact h.symm
    subst hrecs
    obtain ⟨a, b, _, _, hre⟩ := exists_of_mem_zipWith hrmem
    subst hre
    unfold mkRecord
    constructor
    · rw [lookupKey_setKey_ne _ _ _ _ (flexCode_ne_field _ _ htf),
        lookupKey_setKey_ne _ _ _ _ (flexCode_ne_field _ _ hsf)]
      rfl
    · have hkeys1 : (setKey defaultRecord sf
          (JVal.str (unformat_text a source_type))).map Prod.fst =
          defaultRecord.map Prod.fst :=
        keys_setKey _ _ _ (field_mem_default_keys _ _ hsf)
      have htfmem : tf ∈ (setKey defaultRecord sf
          (JVal.str (unformat_text a source_type))).map Prod.fst := by
        rw [hkeys1]
        exact field_mem_default_keys _ _ htf
      rw [keys_setKey _ _ _ htfmem, hkeys1]

/-- Witness for C9 at a concrete egy→tnt conversion of one line pair. -/
theorem flexCode_extra_key_witness :
    lookupKey (mkRecord "source" "transliteration" "egy" "tnt" (pyS "a")
      (pyS "b")) "flexCode" = some (JVal.str (pyS "")) ∧
    (defaultRecord.map Prod.fst).length = 7 := by
  have h := flexCode_extra_key [pyS "a"] [pyS "b"] "egy" "tnt"
    "source" "transliteration"
    (List.zipWith (mkRecord "source" "transliteration" "egy" "tnt")
      [pyS "a"] [pyS "b"]) rfl rfl rfl
  refine ⟨?_, h.2.1⟩
  exact (h.1 (mkRecord "source" "transliteration" "egy" "tnt" (pyS "a")
    (pyS "b")) (List.mem_singleton.mpr rfl)).1

/-! ### Lemmas about the JSON→Text converter -/

theorem convLoop_lengths (C : Cleaners) (source target sf tf : String) :
    ∀ data : List InEntry,
      (convLoop C source target sf tf data).1.length =
        (convLoop C source target sf tf data).2.1.length ∧
      (convLoop C source target sf tf data).1.length +
        (convLoop C source target sf tf data).2.2 = data.length := by
  intro data
  induction data with
  | nil => exact ⟨rfl, rfl⟩
  | cons e rest ih =>
    have h1 := ih.1
    have h2 := ih.2
    simp only [convLoop]
    cases hp : processEntry C source target sf tf e with
    | none =>
      simp only [hp]
      refine ⟨h1, ?_⟩
      simp only [List.length_cons]
      omega
    | some st =>
      simp only [hp]
      refine ⟨?_, ?_⟩ <;> simp only [List.length_cons] <;> omega

theorem convert_json_eq_ok (C : Cleaners) (data : List InEntry)
    (source target sf tf : String)
    (hsf : FIELD_MAPPING source = some sf)
    (htf : FIELD_MAPPING target = some tf) :
    convert_json_to_txt C data source target =
      .ok ((convLoop C source target sf tf data).1,
        (convLoop C source target sf tf data).2.1,
        ⟨data.length, (convLoop C source target sf tf data).1.length,
          (convLoop C source target sf tf data).2.2⟩) := by
  unfold convert_json_to_txt
  rw [hsf, htf]

theorem convert_json_eq_err_source (C : Cleaners) (data : List InEntry)
    (source target : String) (h : FIELD_MAPPING source = none) :
    convert_json_to_txt C data source target =
      .error (.unknownSourceType source) := by
  unfold convert_json_to_txt
  rw [h]

theorem convert_json_eq_err_target (C : Cleaners) (data : List InEntry)
    (source target sf : String) (hsf : FIELD_MAPPING source = some sf)
    (h : FIELD_MAPPING target = none) :
    convert_json_to_txt C data source target =
      .error (.unknownTargetType target) := by
  unfold convert_json_to_txt
  rw [hsf, h]

theorem convert_cons_skipped (C : Cleaners) (data : List InEntry)
    (entry : InEntry) (source target sf tf : String) (sl tl : List Str)
    (st : Stats)
    (hsf : FIELD_MAPPING source = some sf)
    (htf : FIELD_MAPPING target = some tf)
    (hskip : processEntry C source target sf tf entry = none)
    (hok : convert_json_to_txt C data source target = .ok (sl, tl, st)) :
    convert_json_to_txt C (entry :: data) source target =
      .ok (sl, tl, ⟨st.total_entries + 1, st.processed_entries,
        st.skipped_entries + 1⟩) := by
  rw [convert_json_eq_ok C data source target sf tf hsf htf] at hok
  injection hok with h
  simp only [Prod.mk.injEq] at h
  obtain ⟨h1, h2, h3⟩ := h
  rw [convert_json_eq_ok C (entry :: data) source target sf tf hsf htf]
  have hR : convLoop C source target sf tf (entry :: data) =
      ((convLoop C source target sf tf data).1,
        (convLoop C source target sf tf data).2.1,
        (convLoop C source target sf tf data).2.2 + 1) := by
    simp only [convLoop, hskip]
  rw [hR]
  subst h1
  subst h2
  subst h3
  rfl

theorem processEntry_none_of_filter (C : Cleaners)
    (source target sf tf : String) (entry : InEntry)
    (hskip : langFilterSkip target entry = true) :
    processEntry C source target sf tf entry = none := by
  unfold processEntry
  cases hgs : entry.get sf with
  | none => rfl
  | some s0 =>
    cases hgt : entry.get tf with
    | none => rfl
    | some t0 => simp [hskip]

theorem convert_cons_lang_filtered (C : Cleaners) (data : List InEntry)
    (entry : InEntry) (source target sf : String) (sl tl : List Str)
    (st : Stats)
    (hsf : FIELD_MAPPING source = some sf)
    (htgt : target = "en" ∨ target = "de")
    (hmis : (entry.metadata.getD emptyMetadata).target_lang ≠ some (pyS target))
    (hok : convert_json_to_txt C data source target = .ok (sl, tl, st)) :
    convert_json_to_txt C (entry :: data) source target =
      .ok (sl, tl, ⟨st.total_entries + 1, st.processed_entries,
        st.skipped_entries + 1⟩) := by
  have htf : FIELD_MAPPING target = some "target" := by
    rcases htgt with h | h <;> subst h <;> rfl
  have hskipb : langFilterSkip target entry = true := by
    rcases htgt with h | h <;> subst h <;>
      simp [langFilterSkip, LANG_FILTER_MAPPING, hmis]
  exact convert_cons_skipped C data entry source target sf "target" sl tl st
    hsf htf (processEntry_none_of_filter C source target sf "target" entry
      hskipb) hok

/-! ### Claims about the JSON→Text converter -/

/-- C2: on every successful run of `convert_json_to_txt`, the produced
source and target line lists have equal length, and that length equals
the `processed_entries` count of the returned stats. -/
theorem alignment_invariant (C : Cleaners) (data : List InEntry)
    (source target : String) (sl tl : List Str) (st : Stats)
    (hok : convert_json_to_txt C data source target = .ok (sl, tl, st)) :
    sl.length = tl.length ∧ tl.length = st.processed_entries := by
  cases hsf : FIELD_MAPPING source with
  | none =>
    rw [convert_json_eq_err_source C data source target hsf] at hok
    exact Except.noConfusion hok
  | some sf =>
    cases htf : FIELD_MAPPING target with
    | none =>
      rw [convert_json_eq_err_target C data source target sf hsf htf] at hok
      exact Except.noConfusion hok
    | some tf =>
      rw [convert_json_eq_ok C data source target sf tf hsf htf] at hok
      injection hok with h
      simp only [Prod.mk.injEq] at h
      obtain ⟨h1, h2, h3⟩ := h
      subst h1
      subst h2
      subst h3
      have hs := convLoop_lengths C source target sf tf data
      exact ⟨hs.1, hs.1.symm⟩

/-- Witness for C2 on a one-record egy→tnt conversion. -/
theorem alignment_invariant_witness :
    ([pyS "ab"] : List Str).length = ([pyS "c d"] : List Str).length ∧
    ([pyS "c d"] : List Str).length = (⟨1, 1, 0⟩ : Stats).processed_entries :=
  alignment_invariant idCleaners
    [⟨some (pyS "ab"), some (pyS "cd"), none, none, none, none⟩]
    "egy" "tnt" [pyS "ab"] [pyS "c d"] ⟨1, 1, 0⟩ rfl

/-- C3: on every successful run of `convert_json_to_txt`, the stats
satisfy `processed_entries + skipped_entries = total_entries`. -/
theorem stats_conservation (C : Cleaners) (data : List InEntry)
    (source target : String) (sl tl : List Str) (st : Stats)
    (hok : convert_json_to_txt C data source target = .ok (sl, tl, st)) :
    st.processed_entries + st.skipped_entries = st.total_entries := by
  cases hsf : FIELD_MAPPING source with
  | none =>
    rw [convert_json_eq_err_source C data source target hsf] at hok
    exact Except.noConfusion hok
  | some sf =>
    cases htf : FIELD_MAPPING target with
    | none =>
      rw [convert_json_eq_err_target C data source target sf hsf htf] at hok
      exact Except.noConfusion hok
    | some tf =>
      rw [convert_json_eq_ok C data source target sf tf hsf htf] at hok
      injection hok with h
      simp only [Prod.mk.injEq] at h
      obtain ⟨h1, h2, h3⟩ := h
      subst h3
      exact (convLoop_lengths C source target sf tf data).2

/-- Witness for C3 on a two-record run with one skip. -/
theorem stats_conservation_witness :
    (⟨2, 1, 1⟩ : Stats).processed_entries + (⟨2, 1, 1⟩ : Stats).skipped_entries =
      (⟨2, 1, 1⟩ : Stats).total_entries :=
  stats_conservation idCleaners
    [⟨some (pyS "ab"), some (pyS "cd"), none, none, none, none⟩,
     ⟨some (pyS "ab"), some (pyS ""), none, none, none, none⟩]
    "egy" "tnt" [pyS "ab"] [pyS "c d"] ⟨2, 1, 1⟩ rfl

/-- C5: a record whose `metadata.target_lang` differs from the language
tag required by target code "en" or "de" is skipped — it adds one to
`skipped_entries` and one to `total_entries` and contributes no output
line — regardless of its other fields. -/
theorem language_filter_skips (C : Cleaners) (data : List InEntry)
    (entry : InEntry) (source target sf : String) (sl tl : List Str)
    (st : Stats)
    (hsf : FIELD_MAPPING source = some sf)
    (htgt : target = "en" ∨ target = "de")
    (hmis : (entry.metadata.getD emptyMetadata).target_lang ≠ some (pyS target))
    (hok : convert_json_to_txt C data source target = .ok (sl, tl, st)) :
    convert_json_to_txt C (entry :: data) source target =
      .ok (sl, tl, ⟨st.total_entries + 1, st.processed_entries,
        st.skipped_entries + 1⟩) :=
  convert_cons_lang_filtered C data entry source target sf sl tl st hsf htgt
    hmis hok

/-- Witness for C5: scenario C, `metadata.target_lang = "fr"` under
target code "en", with both fields present and non-empty. -/
theorem language_filter_skips_witness :
    convert_json_to_txt idCleaners
      [⟨some (pyS "A"), none, some (pyS "hello"), none, none,
        some ⟨some (pyS "fr")⟩⟩] "egy" "en" =
      .ok ([], [], ⟨1, 0, 1⟩) :=
  language_filter_skips idCleaners []
    ⟨some (pyS "A"), none, some (pyS "hello"), none, none,
      some ⟨some (pyS "fr")⟩⟩
    "egy" "en" "source" [] [] ⟨0, 0, 0⟩ rfl (Or.inl rfl) (by decide) rfl

/-- C7: when either field code is outside the closed enumeration,
`convert_json_to_txt` fails with the unknown-code error, the outcome does
not depend on the records or the cleaners (nothing is iterated), and no
output file is produced. -/
theorem unknown_code_fails_fast (source target : String)
    (h : FIELD_MAPPING source = none ∨ FIELD_MAPPING target = none)
    (C C' : Cleaners) (data data' : List InEntry) :
    (convert_json_to_txt C data source target =
        .error (.unknownSourceType source) ∨
      convert_json_to_txt C data source target =
        .error (.unknownTargetType target)) ∧
    convert_json_to_txt C data source target =
      convert_json_to_txt C' data' source target ∧
    outputFiles source target (convert_json_to_txt C data source target) = [] := by
  rcases h with h | h
  · refine ⟨Or.inl (convert_json_eq_err_source C data source target h), ?_, ?_⟩
    · rw [convert_json_eq_err_source C data source target h,
        convert_json_eq_err_source C' data' source target h]
    · rw [convert_json_eq_err_source C data source target h]
      rfl
  · cases hs : FIELD_MAPPING source with
    | none =>
      refine ⟨Or.inl (convert_json_eq_err_source C data source target hs),
        ?_, ?_⟩
      · rw [convert_json_eq_err_source C data source target hs,
          convert_json_eq_err_source C' data' source target hs]
      · rw [convert_json_eq_err_source C data source target hs]
        rfl
    | some sf =>
      refine ⟨Or.inr (convert_json_eq_err_target C data source target sf hs h),
        ?_, ?_⟩
      · rw [convert_json_eq_err_target C data source target sf hs h,
          convert_json_eq_err_target C' data' source target sf hs h]
      · rw [convert_json_eq_err_target C data source target sf hs h]
        rfl

/-- Witness for C7 at the unknown source code "xx". -/
theorem unknown_code_fails_fast_witness :
    (convert_json_to_txt idCleaners [] "xx" "tnt" =
        .error (.unknownSourceType "xx") ∨
      convert_json_to_txt idCleaners [] "xx" "tnt" =
        .error (.unknownTargetType "tnt")) ∧
    convert_json_to_txt idCleaners [] "xx" "tnt" =
      convert_json_to_txt idCleaners [] "xx" "tnt" ∧
    outputFiles "xx" "tnt" (convert_json_to_txt idCleaners [] "xx" "tnt") = [] :=
  unknown_code_fails_fast "xx" "tnt" (Or.inl rfl) idCleaners idCleaners [] []

/-- C10: a record with no `metadata` key, or whose metadata lacks
`target_lang`, processed with target code "en" or "de", raises no error:
the conversion still succeeds and the record is counted as skipped,
contributing no output line. -/
theorem missing_metadata_skipped (C : Cleaners) (data : List InEntry)
    (entry : InEntry) (source target sf : String) (sl tl : List Str)
    (st : Stats)
    (hsf : FIELD_MAPPING source = some sf)
    (htgt : target = "en" ∨ target = "de")
    (hmeta : entry.metadata = none ∨
      ∃ m, entry.metadata = some m ∧ m.target_lang = none)
    (hok : convert_json_to_txt C data source target = .ok (sl, tl, st)) :
    convert_json_to_txt C (entry :: data) source target =
      .ok (sl, tl, ⟨st.total_entries + 1, st.processed_entries,
        st.skipped_entries + 1⟩) := by
  have hmis : (entry.metadata.getD emptyMetadata).target_lang ≠
      some (pyS target) := by
    rcases hmeta with h | ⟨m, hm, ht⟩
    · rw [h]
      intro hc
      exact Option.noConfusion hc
    · rw [hm]
      simp only [Option.getD_some, ht]
      intro hc
      exact Option.noConfusion hc
  exact convert_cons_lang_filtered C data entry source target sf sl tl st hsf
    htgt hmis hok

/-- Witness for C10: a record with both fields present but no metadata at
all, under target code "en". -/
theorem missing_metadata_skipped_witness :
    convert_json_to_txt idCleaners
      [⟨some (pyS "A"), none, some (pyS "hello"), none, none, none⟩]
      "egy" "en" = .ok ([], [], ⟨1, 0, 1⟩) :=
  missing_metadata_skipped idCleaners []
    ⟨some (pyS "A"), none, some (pyS "hello"), none, none, none⟩
    "egy" "en" "source" [] [] ⟨0, 0, 0⟩ rfl (Or.inl rfl) (Or.inl rfl) rfl
